import Mathlib

set_option maxRecDepth 20000

/-!
Verification of the receipt-splitter core: the totals/discount/tax
computation (`computeTotals` in the application component) and the
URL-state codec (`encodeState` / `decodeState` in `src/lib/url-state.ts`).

Modelling conventions.

JavaScript numbers are IEEE-754 doubles.  The specification states all
numeric laws in exact decimal arithmetic ("up to rounding"), so numbers
are modelled as exact rationals extended with the two IEEE special
shapes that the code can actually produce and that the claims are about:
`NaN` and signed infinity.  Rounding is not modelled; negative zero is
identified with zero.  `JsNum.fin q` is a finite value, `JsNum.inf b` is
`+Infinity` when `b = true` and `-Infinity` otherwise, `JsNum.nan` is `NaN`.
The arithmetic operations below follow the JavaScript (IEEE) rules for
these shapes exactly: any operation with a `NaN` operand yields `NaN`,
`0/0` and `Infinity - Infinity` yield `NaN`, a nonzero finite value
divided by zero yields a signed infinity, and so on.
-/

inductive JsNum where
  | nan : JsNum
  | inf : Bool → JsNum
  | fin : ℚ → JsNum
deriving DecidableEq

/-- Negation of a JavaScript number (sign flip on infinities). -/
def JsNum.neg : JsNum → JsNum
  | JsNum.nan => JsNum.nan
  | JsNum.inf b => JsNum.inf (!b)
  | JsNum.fin q => JsNum.fin (-q)

/-- Addition following the IEEE rules used by JavaScript `+`. -/
def JsNum.add : JsNum → JsNum → JsNum
  | JsNum.nan, _ => JsNum.nan
  | _, JsNum.nan => JsNum.nan
  | JsNum.inf b, JsNum.inf c => if b = c then JsNum.inf b else JsNum.nan
  | JsNum.inf b, JsNum.fin _ => JsNum.inf b
  | JsNum.fin _, JsNum.inf c => JsNum.inf c
  | JsNum.fin a, JsNum.fin b => JsNum.fin (a + b)

/-- Subtraction: JavaScript `x - y` behaves as `x + (-y)` on these shapes. -/
def JsNum.sub (x y : JsNum) : JsNum := JsNum.add x (JsNum.neg y)

/-- Multiplication following the IEEE rules used by JavaScript `*`
(`Infinity * 0` is `NaN`, signs multiply). -/
def JsNum.mul : JsNum → JsNum → JsNum
  | JsNum.nan, _ => JsNum.nan
  | _, JsNum.nan => JsNum.nan
  | JsNum.inf b, JsNum.inf c => JsNum.inf (b = c)
  | JsNum.inf b, JsNum.fin a => if a = 0 then JsNum.nan else JsNum.inf (b = decide (0 < a))
  | JsNum.fin a, JsNum.inf c => if a = 0 then JsNum.nan else JsNum.inf (c = decide (0 < a))
  | JsNum.fin a, JsNum.fin b => JsNum.fin (a * b)

/-- Division following the IEEE rules used by JavaScript `/`
(`0/0` is `NaN`, `x/0` for nonzero finite `x` is a signed infinity,
`Infinity/Infinity` is `NaN`, finite over infinite is `0`; zero is
treated as `+0`, since `-0` is not modelled). -/
def JsNum.div : JsNum → JsNum → JsNum
  | JsNum.nan, _ => JsNum.nan
  | _, JsNum.nan => JsNum.nan
  | JsNum.inf _, JsNum.inf _ => JsNum.nan
  | JsNum.inf b, JsNum.fin a => if a = 0 then JsNum.inf b else JsNum.inf (b = decide (0 < a))
  | JsNum.fin _, JsNum.inf _ => JsNum.fin 0
  | JsNum.fin a, JsNum.fin b =>
      if b = 0 then (if a = 0 then JsNum.nan else JsNum.inf (decide (0 < a)))
      else JsNum.fin (a / b)

instance : Neg JsNum := ⟨JsNum.neg⟩

instance : Add JsNum := ⟨JsNum.add⟩

instance : Sub JsNum := ⟨JsNum.sub⟩

instance : Mul JsNum := ⟨JsNum.mul⟩

instance : Div JsNum := ⟨JsNum.div⟩

/-- Test for the `NaN` shape. -/
def JsNum.isNaN : JsNum → Bool
  | JsNum.nan => true
  | _ => false

/-- A JavaScript number is finite when it is an actual rational value
(neither `NaN` nor an infinity). -/
def JsNum.IsFinite (x : JsNum) : Prop := ∃ q : ℚ, x = JsNum.fin q

/-- A JavaScript number is a non-negative number when it is finite and `≥ 0`
(`NaN` is not a non-negative number). -/
def JsNum.Nonneg (x : JsNum) : Prop := ∃ q : ℚ, x = JsNum.fin q ∧ 0 ≤ q

instance (x : JsNum) : Decidable (JsNum.IsFinite x) :=
  match x with
  | JsNum.nan => Decidable.isFalse (by rintro ⟨q, h⟩; cases h)
  | JsNum.inf b => Decidable.isFalse (by rintro ⟨q, h⟩; cases h)
  | JsNum.fin q => Decidable.isTrue ⟨q, rfl⟩

instance (x : JsNum) : Decidable (JsNum.Nonneg x) :=
  match x with
  | JsNum.nan => Decidable.isFalse (by rintro ⟨q, h, _⟩; cases h)
  | JsNum.inf b => Decidable.isFalse (by rintro ⟨q, h, _⟩; cases h)
  | JsNum.fin q =>
      if h : 0 ≤ q then Decidable.isTrue ⟨q, rfl, h⟩
      else Decidable.isFalse (by rintro ⟨q', hq', hle⟩; cases hq'; exact h hle)

/-!
Model of the JavaScript `parseFloat` builtin, as used by `computeTotals`:
leading whitespace is skipped, then the longest prefix matching an
optionally signed decimal literal (or `Infinity`) is converted; if no such
prefix exists the result is `NaN`.  Exponent parts (`e`/`E`) are included
only when followed by at least one digit.
-/

/-- Whitespace characters skipped by `parseFloat` (the common subset of
ECMAScript StrWhiteSpace actually reachable from keyboard input). -/
def jsWhitespace (c : Char) : Bool :=
  c == ' ' || c == '\t' || c == '\n' || c == '\r' || c == '\x0b' || c == '\x0c'

/-- Numeric value of a decimal digit character. -/
def digitVal (c : Char) : ℕ := c.toNat - 48

/-- Value of a digit sequence read in base 10. -/
def digitsToNat (ds : List Char) : ℕ := ds.foldl (fun n c => 10 * n + digitVal c) 0

/-- Split a character list into its leading digits and the remainder. -/
def takeDigits (l : List Char) : List Char × List Char := l.span Char.isDigit

/-- Drop a literal character sequence from the front of a list, or fail. -/
def dropLit : List Char → List Char → Option (List Char)
  | [], l => some l
  | c :: cs, d :: ds => if c = d then dropLit cs ds else none
  | _ :: _, [] => none

/-- Integer power of ten as a rational. -/
def pow10 : ℤ → ℚ
  | Int.ofNat n => (10 : ℚ) ^ n
  | Int.negSucc n => ((10 : ℚ) ^ (n + 1))⁻¹

/-- Exact value of a parsed decimal literal: sign, integer digits,
fraction digits and decimal exponent. -/
def decValue (neg : Bool) (d1 d2 : List Char) (e : ℤ) : ℚ :=
  let m : ℚ := (digitsToNat d1 : ℚ) + (digitsToNat d2 : ℚ) / (10 : ℚ) ^ d2.length
  let v := m * pow10 e
  if neg then -v else v

/-- Parse an optional exponent part; an `e`/`E` not followed by a digit is
not part of the accepted prefix and contributes exponent `0`. -/
def parseExp (l : List Char) : ℤ :=
  match l with
  | c :: rest =>
      if c == 'e' || c == 'E' then
        match rest with
        | '+' :: r2 =>
            (match takeDigits r2 with
             | ([], _) => 0
             | (ds, _) => (digitsToNat ds : ℤ))
        | '-' :: r2 =>
            (match takeDigits r2 with
             | ([], _) => 0
             | (ds, _) => -(digitsToNat ds : ℤ))
        | r2 =>
            (match takeDigits r2 with
             | ([], _) => 0
             | (ds, _) => (digitsToNat ds : ℤ))
      else 0
  | [] => 0

/-- Model of JavaScript `parseFloat`.  An empty or non-numeric string
(no digits in the accepted prefix) yields `NaN`. -/
def parseFloat (s : String) : JsNum :=
  let l := s.data.dropWhile jsWhitespace
  let signSplit : Bool × List Char :=
    match l with
    | '-' :: r => (true, r)
    | '+' :: r => (false, r)
    | _ => (false, l)
  match dropLit "Infinity".data signSplit.2 with
  | some _ => JsNum.inf (!signSplit.1)
  | none =>
      let p1 := takeDigits signSplit.2
      let p2 : List Char × List Char :=
        match p1.2 with
        | '.' :: r => takeDigits r
        | _ => ([], p1.2)
      if p1.1 = [] ∧ p2.1 = [] then JsNum.nan
      else JsNum.fin (decValue signSplit.1 p1.1 p2.1 (parseExp p2.2))

/-- Model of the JavaScript expression `x || 0` applied to a number, as in
`parseFloat(discountValue) || 0`: the falsy numeric values are `NaN`, `0`
and `-0`, all of which the expression maps to `0`; since `fin 0` is already
`0` and `-0` is not modelled, only the `NaN` case changes the value. -/
def orZero (x : JsNum) : JsNum :=
  match x with
  | JsNum.nan => JsNum.fin 0
  | y => y

/-!
Data model of the application (`src/types.ts`): a line item has a name,
a price (a number, modelled as an exact rational, see above), a category
and a taxable flag.  The discount type is the two-valued union
`'percentage' | 'amount'`.
-/

structure LineItem where
  name : String
  price : ℚ
  category : String
  taxable : Bool
deriving DecidableEq

inductive DiscountType where
  | percentage : DiscountType
  | amount : DiscountType
deriving DecidableEq

/-- Per-category record of the `CategoryTotals` mapping
(`src/types.ts`): `{subtotal, discount, tax, total}`.  The subtotal is a
plain sum of item prices and hence always a finite rational in this
model; discount, tax and total can be `NaN`, so they stay in `JsNum`. -/
structure CatRecord where
  subtotal : ℚ
  discount : JsNum
  tax : JsNum
  total : JsNum
deriving DecidableEq

/-- Accumulate one item price into the insertion-ordered association list
of per-category subtotals.  This mirrors the first loop of `computeTotals`:
a first-seen category is appended with record `{subtotal: 0, ...}` and then
`subtotal += price` is applied, which amounts to appending `(c, p)`. -/
def addPrice : List (String × ℚ) → String → ℚ → List (String × ℚ)
  | [], c, p => [(c, p)]
  | (c', s) :: rest, c, p =>
      if c' = c then (c', s + p) :: rest else (c', s) :: addPrice rest c p

/-- First loop of `computeTotals`: group the items by category, in
first-seen order, accumulating each category's subtotal. -/
def groupSubtotals (items : List LineItem) : List (String × ℚ) :=
  items.foldl (fun acc it => addPrice acc it.category it.price) []

/-- Second step of `computeTotals`:
`Object.values(totals).reduce((sum, val) => sum + val.subtotal, 0)`. -/
def totalSubtotal (g : List (String × ℚ)) : ℚ :=
  g.foldl (fun sum cs => sum + cs.2) 0

/-- Per-category record computation: the body of the map in
`computeTotals`, lifted to a named function (see the `computeTotals`
doc comment).  Here `rate` and `dValue` are the already-parsed rate and
discount value, `totalSub` the total subtotal, and `s` the category
subtotal. -/
def catRecordOf (items : List LineItem) (rate dValue : JsNum)
    (discountType : DiscountType) (totalSub : ℚ) (cat : String) (s : ℚ) :
    CatRecord :=
  let discount :=
    match discountType with
    | DiscountType.percentage => JsNum.fin s * (dValue / JsNum.fin 100)
    | DiscountType.amount => dValue * (JsNum.fin s / JsNum.fin totalSub)
  let afterDiscount := JsNum.fin s - discount
  let tax := (items.filter (fun it => it.category == cat && it.taxable)).foldl
    (fun sum it =>
      sum + ((JsNum.fin it.price - JsNum.fin it.price / JsNum.fin s * discount) * rate))
    (JsNum.fin 0)
  { subtotal := s, discount := discount, tax := tax, total := afterDiscount + tax }

/-- The totals/discount/tax engine, translated from `computeTotals` in the
application component (`src/unnamed/part_001`, lines 104-145; the copy in
`src/unnamed/part_000`, lines 110-151, is textually identical):

* `rate = parseFloat(taxRate) / 100` — note: no fallback for `NaN`;
* `dValue = parseFloat(discountValue) || 0`;
* group items by category accumulating subtotals, in insertion order;
* `totalSubtotal` is the sum of all subtotals;
* per category: `discount = subtotal * (dValue / 100)` for a percentage
  discount, `discount = dValue * (subtotal / totalSubtotal)` for a flat
  amount; `afterDiscount = subtotal - discount`; tax is the sum, over the
  category's taxable items, of `(price - price / subtotal * discount) * rate`;
  `total = afterDiscount + tax`.

The result is the insertion-ordered association list modelling the
`CategoryTotals` object.  The body of the per-category loop is lifted
into the named helper `catRecordOf` (a lambda-lifting of the map body,
changing nothing in the computation). -/
def computeTotals (items : List LineItem) (taxRate : String)
    (discountType : DiscountType) (discountValue : String) :
    List (String × CatRecord) :=
  let rate := parseFloat taxRate / JsNum.fin 100
  let dValue := orZero (parseFloat discountValue)
  let g := groupSubtotals items
  let totalSub := totalSubtotal g
  g.map (fun cs => (cs.1, catRecordOf items rate dValue discountType totalSub cs.1 cs.2))

/-- Sum of a list of JavaScript numbers, folded from `0` on the left (the
shape of every `reduce((sum, x) => sum + …, 0)` in the source). -/
def jsum (l : List JsNum) : JsNum := l.foldl (fun a b => a + b) (JsNum.fin 0)

/-!
State codec (`src/lib/url-state.ts`).

The persisted state is the `ReceiptState` interface: items plus the raw
tax-rate and discount-value strings and the discount type.  `encodeState`
is `btoa(JSON.stringify(state))`; `decodeState` is
`JSON.parse(atob(encoded))` wrapped in a `try`/`catch` that returns
`null`, modelled as `Option` with `none` for both the thrown-exception
path and the `null` result.

The `JSON.stringify` model below prints object fields in property
insertion order, which for the state object and for every item object is
the declaration order used throughout the application
(`items, taxRate, discountType, discountValue` and
`name, price, category, taxable`).  Number printing covers finite decimal
notation (every price in a persisted state is a double, hence has a
terminating decimal expansion); the exponential notation JavaScript
switches to at magnitude `1e21` is outside every input considered here.
`btoa` rejects (throws on, modelled as `none`) any character above
`U+00FF`.  `atob` implements the forgiving-base64 decode.  The
`JSON.parse` model is a fuel-based recursive-descent parser of the JSON
grammar; JavaScript strings containing lone UTF-16 surrogates (reachable
only through `\uXXXX` escapes in the decoded text) are not representable
as Lean strings, and such escapes make the model parser fail instead.
-/

structure ReceiptState where
  items : List LineItem
  taxRate : String
  discountType : DiscountType
  discountValue : String
deriving DecidableEq

/-- Lowercase hexadecimal digit. -/
def hexDigit (n : ℕ) : Char :=
  if n < 10 then Char.ofNat (48 + n) else Char.ofNat (87 + n)

/-- Escaping of one character inside a JSON string literal, as performed
by `JSON.stringify`: quote and backslash are escaped, the short escapes
are used for the usual control characters, other control characters get a
`\u00xx` escape, and everything else (including all non-ASCII characters)
is emitted literally. -/
def jsonEscapeChar (c : Char) : String :=
  if c = '"' then "\\\""
  else if c = '\\' then "\\\\"
  else if c = '\x08' then "\\b"
  else if c = '\t' then "\\t"
  else if c = '\n' then "\\n"
  else if c = '\x0c' then "\\f"
  else if c = '\r' then "\\r"
  else if c.toNat < 32 then
    String.mk ['\\', 'u', '0', '0', hexDigit (c.toNat / 16), hexDigit (c.toNat % 16)]
  else String.singleton c

/-- JSON string literal for a string value. -/
def jsonQuote (s : String) : String :=
  "\"" ++ String.join (s.data.map jsonEscapeChar) ++ "\""

/-- Smallest decimal scale at which a rational is an integer (bounded
search; every IEEE double terminates well within the bound). -/
def decScale (q : ℚ) : ℕ :=
  ((List.range 400).find? (fun k => (q * (10 : ℚ) ^ k).den = 1)).getD 0

/-- Decimal digits of a natural number, via a fuel-bounded loop. -/
def natDigitsAux : ℕ → ℕ → List Char
  | 0, _ => []
  | fuel + 1, n =>
      if n = 0 then [] else natDigitsAux fuel (n / 10) ++ [Char.ofNat (48 + n % 10)]

/-- Decimal notation of a natural number. -/
def natToString (n : ℕ) : String :=
  if n = 0 then "0" else String.mk (natDigitsAux (n + 1) n)

/-- Decimal notation of a non-negative rational with terminating
expansion, as printed by `JSON.stringify` (no trailing zeros, no
exponent). -/
def jsonNumAbs (q : ℚ) : String :=
  let k := decScale q
  let n := (q * (10 : ℚ) ^ k).num.toNat
  if k = 0 then natToString n
  else
    let ds0 := (natToString n).data
    let ds := if ds0.length ≤ k then List.replicate (k + 1 - ds0.length) '0' ++ ds0 else ds0
    String.mk (ds.take (ds.length - k)) ++ "." ++ String.mk (ds.drop (ds.length - k))

/-- Decimal notation of a rational number value, as printed by
`JSON.stringify`. -/
def jsonNum (q : ℚ) : String :=
  if q < 0 then "-" ++ jsonNumAbs (-q) else jsonNumAbs q

/-- Serialization of one line item, in the property order used by every
item constructor in the application. -/
def stringifyItem (it : LineItem) : String :=
  "\x7b\"name\":" ++ jsonQuote it.name ++ ",\"price\":" ++ jsonNum it.price ++
  ",\"category\":" ++ jsonQuote it.category ++ ",\"taxable\":" ++
  (if it.taxable then "true" else "false") ++ "\x7d"

/-- The literal of a discount type, as in the `'percentage' | 'amount'`
union. -/
def discountTypeStr : DiscountType → String
  | DiscountType.percentage => "percentage"
  | DiscountType.amount => "amount"

/-- Model of `JSON.stringify(state)` for a `ReceiptState`. -/
def stringifyState (st : ReceiptState) : String :=
  "\x7b\"items\":[" ++ String.intercalate "," (st.items.map stringifyItem) ++
  "],\"taxRate\":" ++ jsonQuote st.taxRate ++
  ",\"discountType\":\"" ++ discountTypeStr st.discountType ++
  "\",\"discountValue\":" ++ jsonQuote st.discountValue ++ "\x7d"

/-- Character of the base64 alphabet at a sextet value. -/
def b64Char (n : ℕ) : Char :=
  if n < 26 then Char.ofNat (65 + n)
  else if n < 52 then Char.ofNat (97 + (n - 26))
  else if n < 62 then Char.ofNat (48 + (n - 52))
  else if n = 62 then '+' else '/'

/-- Standard base64 encoding of a byte sequence, with padding. -/
def b64EncodeBytes : List ℕ → List Char
  | [] => []
  | [a] => [b64Char (a / 4), b64Char (a % 4 * 16), '=', '=']
  | [a, b] => [b64Char (a / 4), b64Char (a % 4 * 16 + b / 16), b64Char (b % 16 * 4), '=']
  | a :: b :: c :: rest =>
      b64Char (a / 4) :: b64Char (a % 4 * 16 + b / 16) ::
      b64Char (b % 16 * 4 + c / 64) :: b64Char (c % 64) :: b64EncodeBytes rest

/-- Model of the `btoa` builtin: encodes the string's code points as
Latin-1 bytes, and throws (modelled as `none`) when any code point is
above `U+00FF`. -/
def btoa (s : String) : Option String :=
  if s.data.all (fun c => c.toNat ≤ 255) then
    some (String.mk (b64EncodeBytes (s.data.map Char.toNat)))
  else none

/-- Model of `encodeState` (`url-state.ts` lines 11-14):
`btoa(JSON.stringify(state))`; `none` is the thrown
`InvalidCharacterError`. -/
def encodeState (st : ReceiptState) : Option String :=
  btoa (stringifyState st)

/-- ASCII whitespace removed by forgiving-base64 before decoding. -/
def asciiWs (c : Char) : Bool :=
  c == ' ' || c == '\t' || c == '\n' || c == '\r' || c == '\x0c'

/-- Sextet value of a base64 alphabet character. -/
def b64Val (c : Char) : Option ℕ :=
  let n := c.toNat
  if 65 ≤ n ∧ n ≤ 90 then some (n - 65)
  else if 97 ≤ n ∧ n ≤ 122 then some (n - 97 + 26)
  else if 48 ≤ n ∧ n ≤ 57 then some (n - 48 + 52)
  else if c = '+' then some 62
  else if c = '/' then some 63
  else none

/-- Remove up to two trailing padding characters (only called when the
length is a multiple of four, per forgiving-base64). -/
def stripPad (l : List Char) : List Char :=
  match l.reverse with
  | '=' :: '=' :: r => r.reverse
  | '=' :: r => r.reverse
  | _ => l

/-- Reassemble bytes from base64 sextets; a single leftover sextet is a
decode error, and leftover bits of a 2- or 3-sextet tail are discarded
(forgiving-base64). -/
def b64DecodeSextets : List ℕ → Option (List ℕ)
  | [] => some []
  | [_] => none
  | [a, b] => some [a * 4 + b / 16]
  | [a, b, c] => some [a * 4 + b / 16, b % 16 * 16 + c / 4]
  | a :: b :: c :: d :: rest =>
      match b64DecodeSextets rest with
      | none => none
      | some tail =>
          some ((a * 4 + b / 16) :: (b % 16 * 16 + c / 4) :: (c % 4 * 64 + d) :: tail)

/-- Model of the `atob` builtin (forgiving-base64 decode): strip ASCII
whitespace, strip padding when the length is a multiple of four, reject a
remainder of one and any character outside the alphabet, then reassemble
the bytes as a Latin-1 string.  `none` is the thrown
`InvalidCharacterError`. -/
def atob (s : String) : Option String :=
  let l0 := s.data.filter (fun c => !asciiWs c)
  let l := if l0.length % 4 = 0 then stripPad l0 else l0
  if l.length % 4 = 1 then none
  else
    match l.mapM b64Val with
    | none => none
    | some vals =>
        match b64DecodeSextets vals with
        | none => none
        | some bytes => some (String.mk (bytes.map Char.ofNat))

/-!
Model of `JSON.parse`: the JSON value type and a fuel-based
recursive-descent parser of the (strict) JSON grammar.
-/

inductive JVal where
  | jnull : JVal
  | jbool : Bool → JVal
  | jnum : ℚ → JVal
  | jstr : String → JVal
  | jarr : List JVal → JVal
  | jobj : List (String × JVal) → JVal

/-- JSON insignificant whitespace. -/
def jWs (c : Char) : Bool :=
  c == ' ' || c == '\t' || c == '\n' || c == '\r'

/-- Skip JSON whitespace. -/
def skipJWs (l : List Char) : List Char := l.dropWhile jWs

/-- Value of one hexadecimal digit. -/
def hexVal (c : Char) : Option ℕ :=
  let n := c.toNat
  if 48 ≤ n ∧ n ≤ 57 then some (n - 48)
  else if 65 ≤ n ∧ n ≤ 70 then some (n - 55)
  else if 97 ≤ n ∧ n ≤ 102 then some (n - 87)
  else none

/-- Test for the JSON `null` value. -/
def JVal.isNull : JVal → Bool
  | JVal.jnull => true
  | _ => false

/-- JavaScript property assignment on the object built by `JSON.parse`:
a duplicate key keeps its first position but takes the later value. -/
def objAssign : List (String × JVal) → String → JVal → List (String × JVal)
  | [], k, v => [(k, v)]
  | (k', v') :: rest, k, v =>
      if k' = k then (k', v) :: rest else (k', v') :: objAssign rest k v

/-- Parse the body of a JSON string literal (after the opening quote),
returning its characters and the input after the closing quote.  Raw
control characters are rejected; the eight short escapes and `\uXXXX`
are handled; surrogate-range `\uXXXX` escapes fail (see the codec
header comment). -/
def parseJStr : ℕ → List Char → Option (List Char × List Char)
  | 0, _ => none
  | _ + 1, [] => none
  | fuel + 1, c :: rest =>
      if c = '"' then some ([], rest)
      else if c = '\\' then
        match rest with
        | [] => none
        | e :: r2 =>
            let esc : Option (Char × List Char) :=
              if e = '"' then some ('"', r2)
              else if e = '\\' then some ('\\', r2)
              else if e = '/' then some ('/', r2)
              else if e = 'b' then some ('\x08', r2)
              else if e = 'f' then some ('\x0c', r2)
              else if e = 'n' then some ('\n', r2)
              else if e = 'r' then some ('\r', r2)
              else if e = 't' then some ('\t', r2)
              else if e = 'u' then
                match r2 with
                | h1 :: h2 :: h3 :: h4 :: r3 =>
                    (match hexVal h1, hexVal h2, hexVal h3, hexVal h4 with
                     | some v1, some v2, some v3, some v4 =>
                         let n := v1 * 4096 + v2 * 256 + v3 * 16 + v4
                         if 55296 ≤ n ∧ n ≤ 57343 then none
                         else some (Char.ofNat n, r3)
                     | _, _, _, _ => none)
                | _ => none
              else none
            match esc with
            | none => none
            | some (ch, r') =>
                match parseJStr fuel r' with
                | none => none
                | some (cs, rest') => some (ch :: cs, rest')
      else if c.toNat < 32 then none
      else
        match parseJStr fuel rest with
        | none => none
        | some (cs, rest') => some (c :: cs, rest')

/-- Parse a JSON number (strict grammar: no leading zeros, a fraction
or exponent part requires at least one digit). -/
def parseJNum (l : List Char) : Option (ℚ × List Char) :=
  let signSplit : Bool × List Char :=
    match l with
    | '-' :: r => (true, r)
    | _ => (false, l)
  match signSplit.2 with
  | [] => none
  | c :: r2 =>
      let intPart : Option (List Char × List Char) :=
        if c = '0' then
          match r2 with
          | d :: _ => if d.isDigit then none else some (['0'], r2)
          | [] => some (['0'], [])
        else if c.isDigit then some (takeDigits (c :: r2))
        else none
      match intPart with
      | none => none
      | some (d1, r3) =>
          let fracPart : Option (List Char × List Char) :=
            match r3 with
            | '.' :: r4 =>
                (match takeDigits r4 with
                 | ([], _) => none
                 | (ds, r5) => some (ds, r5))
            | _ => some ([], r3)
          match fracPart with
          | none => none
          | some (d2, r6) =>
              let expPart : Option (ℤ × List Char) :=
                match r6 with
                | c2 :: r7 =>
                    if c2 = 'e' ∨ c2 = 'E' then
                      let es : Bool × List Char :=
                        match r7 with
                        | '+' :: r8 => (false, r8)
                        | '-' :: r8 => (true, r8)
                        | _ => (false, r7)
                      match takeDigits es.2 with
                      | ([], _) => none
                      | (ds, r9) =>
                          some ((if es.1 then -(digitsToNat ds : ℤ)
                                 else (digitsToNat ds : ℤ)), r9)
                    else some (0, r6)
                | [] => some (0, [])
              match expPart with
              | none => none
              | some (e, r10) => some (decValue signSplit.1 d1 d2 e, r10)

mutual

/-- Parse one JSON value (fuel-based recursive descent). -/
def parseJVal : ℕ → List Char → Option (JVal × List Char)
  | 0, _ => none
  | fuel + 1, l =>
      match skipJWs l with
      | [] => none
      | c :: rest =>
          if c = '"' then
            match parseJStr (rest.length + 1) rest with
            | some (cs, r) => some (JVal.jstr (String.mk cs), r)
            | none => none
          else if c = 't' then
            match dropLit "rue".data rest with
            | some r => some (JVal.jbool true, r)
            | none => none
          else if c = 'f' then
            match dropLit "alse".data rest with
            | some r => some (JVal.jbool false, r)
            | none => none
          else if c = 'n' then
            match dropLit "ull".data rest with
            | some r => some (JVal.jnull, r)
            | none => none
          else if c = '[' then
            match skipJWs rest with
            | ']' :: r => some (JVal.jarr [], r)
            | _ =>
                match parseJItems fuel rest with
                | some (vs, r) => some (JVal.jarr vs, r)
                | none => none
          else if c.toNat = 123 then
            match skipJWs rest with
            | c2 :: r2 =>
                if c2.toNat = 125 then some (JVal.jobj [], r2)
                else
                  match parseJFields fuel rest with
                  | some (fs, r) =>
                      some (JVal.jobj (fs.foldl (fun acc kv => objAssign acc kv.1 kv.2) []), r)
                  | none => none
            | [] => none
          else if c = '-' ∨ c.isDigit then
            match parseJNum (c :: rest) with
            | some (q, r) => some (JVal.jnum q, r)
            | none => none
          else none

/-- Parse the non-empty element list of a JSON array, up to and including
the closing bracket. -/
def parseJItems : ℕ → List Char → Option (List JVal × List Char)
  | 0, _ => none
  | fuel + 1, l =>
      match parseJVal fuel l with
      | none => none
      | some (v, r) =>
          match skipJWs r with
          | ',' :: r2 =>
              (match parseJItems fuel r2 with
               | some (vs, r3) => some (v :: vs, r3)
               | none => none)
          | ']' :: r2 => some ([v], r2)
          | _ => none

/-- Parse the non-empty member list of a JSON object, up to and
including the closing brace, returning the members in textual order. -/
def parseJFields : ℕ → List Char → Option (List (String × JVal) × List Char)
  | 0, _ => none
  | fuel + 1, l =>
      match skipJWs l with
      | [] => none
      | c :: rest =>
          if c = '"' then
            match parseJStr (rest.length + 1) rest with
            | none => none
            | some (k, r) =>
                match skipJWs r with
                | ':' :: r2 =>
                    (match parseJVal fuel r2 with
                     | none => none
                     | some (v, r3) =>
                         match skipJWs r3 with
                         | ',' :: r4 =>
                             (match parseJFields fuel r4 with
                              | some (fs, r5) => some ((String.mk k, v) :: fs, r5)
                              | none => none)
                         | c4 :: r4 =>
                             if c4.toNat = 125 then some ([(String.mk k, v)], r4)
                             else none
                         | [] => none)
                | _ => none
          else none

end

/-- Model of `JSON.parse` on a whole string: parse one value surrounded
by optional whitespace. -/
def jsonParseText (s : String) : Option JVal :=
  match parseJVal (2 * s.data.length + 4) s.data with
  | some (v, rest) => if skipJWs rest = [] then some v else none
  | none => none

/-- Model of `decodeState` (`url-state.ts` lines 17-24):
`JSON.parse(atob(encoded))` inside a `try`/`catch` returning `null`.
Both builtins' exceptions are caught, so the function returns the `null`
sentinel when `atob` or `JSON.parse` throws; and when the decoded text is
the JSON literal `null`, `JSON.parse` itself returns that same
JavaScript `null`, indistinguishable from the catch-branch sentinel.
All three cases are therefore modelled as `none`; any other successful
parse is returned as-is, with no structural validation (the TypeScript
cast checks nothing), so the result is never `some JVal.jnull`. -/
def decodeState (s : String) : Option JVal :=
  match atob s with
  | none => none
  | some t =>
      match jsonParseText t with
      | none => none
      | some j => if j.isNull then none else some j

/-- Structural well-formedness of a JSON value as a `LineItem`
(the shape of the `LineItem` interface). -/
def isItemJVal : JVal → Bool
  | JVal.jobj fs =>
      (match fs.lookup "name" with | some (JVal.jstr _) => true | _ => false) &&
      (match fs.lookup "price" with | some (JVal.jnum _) => true | _ => false) &&
      (match fs.lookup "category" with | some (JVal.jstr _) => true | _ => false) &&
      (match fs.lookup "taxable" with | some (JVal.jbool _) => true | _ => false)
  | _ => false

/-- Structural well-formedness of a JSON value as a `ReceiptState`
(the shape of the persisted-state interface: an items array of line
items, string tax rate and discount value, and a discount type that is
one of the two union members). -/
def isStateJVal : JVal → Bool
  | JVal.jobj fs =>
      (match fs.lookup "items" with
       | some (JVal.jarr l) => l.all isItemJVal
       | _ => false) &&
      (match fs.lookup "taxRate" with | some (JVal.jstr _) => true | _ => false) &&
      (match fs.lookup "discountType" with
       | some (JVal.jstr t) => t == "percentage" || t == "amount"
       | _ => false) &&
      (match fs.lookup "discountValue" with | some (JVal.jstr _) => true | _ => false)
  | _ => false

example : parseFloat "" = JsNum.nan := by with_unfolding_all rfl
example : parseFloat "10" = JsNum.fin 10 := by with_unfolding_all rfl
example : parseFloat "2.5" = JsNum.fin (5 / 2) := by with_unfolding_all rfl
example : parseFloat "  -3e2x" = JsNum.fin (-300) := by with_unfolding_all rfl
example : parseFloat "abc" = JsNum.nan := by with_unfolding_all rfl
example : orZero (parseFloat "") = JsNum.fin 0 := by with_unfolding_all rfl

example :
    computeTotals [⟨"Milk", 3, "Grocery", true⟩, ⟨"Bread", 2, "Grocery", false⟩]
      "10" DiscountType.percentage "0" =
    [("Grocery", ⟨5, JsNum.fin 0, JsNum.fin (3 / 10), JsNum.fin (53 / 10)⟩)] := by
  with_unfolding_all rfl

example : atob "e30=" = some "\x7b\x7d" := by with_unfolding_all rfl
example : decodeState "e30=" = some (JVal.jobj []) := by with_unfolding_all rfl
example : decodeState "!" = none := by with_unfolding_all rfl
example : atob "bnVsbA==" = some "null" := by with_unfolding_all rfl
example : decodeState "bnVsbA==" = none := by with_unfolding_all rfl
example :
    encodeState ⟨[⟨"x", 0, "日", false⟩], "", DiscountType.percentage, ""⟩ = none := by
  with_unfolding_all rfl
example :
    stringifyState ⟨[], "7.5", DiscountType.amount, "2"⟩ =
    "\x7b\"items\":[],\"taxRate\":\"7.5\",\"discountType\":\"amount\",\"discountValue\":\"2\"\x7d" := by
  with_unfolding_all rfl

/-!
Helper lemmas: JavaScript-number arithmetic on finite values, list sums,
and the behaviour of the grouping pass.
-/

theorem fin_add_fin (a b : ℚ) : JsNum.fin a + JsNum.fin b = JsNum.fin (a + b) := rfl

theorem fin_sub_fin (a b : ℚ) : JsNum.fin a - JsNum.fin b = JsNum.fin (a - b) := by
  show JsNum.fin (a + -b) = JsNum.fin (a - b)
  rw [← sub_eq_add_neg]

theorem fin_mul_fin (a b : ℚ) : JsNum.fin a * JsNum.fin b = JsNum.fin (a * b) := rfl

theorem fin_div_fin (a : ℚ) {b : ℚ} (hb : b ≠ 0) :
    JsNum.fin a / JsNum.fin b = JsNum.fin (a / b) := by
  show JsNum.div _ _ = _
  simp [JsNum.div, hb]

theorem jsum_nil : jsum [] = JsNum.fin 0 := rfl

theorem jsum_foldl_map {α : Type} (f : α → JsNum) (l : List α) :
    l.foldl (fun sum x => sum + f x) (JsNum.fin 0) = jsum (l.map f) := by
  unfold jsum
  rw [List.foldl_map]

theorem foldl_add_fin (l : List ℚ) (a : ℚ) :
    (l.map JsNum.fin).foldl (fun x y => x + y) (JsNum.fin a) = JsNum.fin (a + l.sum) := by
  induction l generalizing a with
  | nil => simp
  | cons q t ih =>
      simp only [List.map_cons, List.foldl_cons, fin_add_fin, ih, List.sum_cons]
      ring_nf

theorem jsum_fin_map {α : Type} (f : α → ℚ) (l : List α) :
    jsum (l.map fun x => JsNum.fin (f x)) = JsNum.fin ((l.map f).sum) := by
  have h : (l.map fun x => JsNum.fin (f x)) = (l.map f).map JsNum.fin := by
    rw [List.map_map]
    rfl
  rw [h]
  unfold jsum
  rw [foldl_add_fin, zero_add]

theorem addPrice_lookup (g : List (String × ℚ)) (c' : String) (p : ℚ) (c : String) :
    (addPrice g c' p).lookup c =
      if c' = c then some (((g.lookup c).getD 0) + p) else g.lookup c := by
  induction g with
  | nil =>
      by_cases h : c' = c
      · subst h
        simp [addPrice, List.lookup]
      · have hb : (c == c') = false := by
          simp only [beq_eq_false_iff_ne, ne_eq]
          exact fun e => h e.symm
        simp [addPrice, List.lookup, hb, h]
  | cons kv t ih =>
      obtain ⟨k, v⟩ := kv
      by_cases hk : k = c'
      · subst hk
        have ha : addPrice ((k, v) :: t) k p = (k, v + p) :: t := by
          simp [addPrice]
        rw [ha]
        by_cases h : k = c
        · subst h
          simp [List.lookup]
        · have hb : (c == k) = false := by
            simp only [beq_eq_false_iff_ne, ne_eq]
            exact fun e => h e.symm
          simp [List.lookup, hb, h]
      · have ha : addPrice ((k, v) :: t) c' p = (k, v) :: addPrice t c' p := by
          simp [addPrice, hk]
        rw [ha]
        by_cases h : k = c
        · subst h
          have hcc : ¬ c' = k := fun e => hk e.symm
          simp [List.lookup, hcc]
        · have hb : (c == k) = false := by
            simp only [beq_eq_false_iff_ne, ne_eq]
            exact fun e => h e.symm
          simp only [List.lookup, hb]
          exact ih

theorem groupSubtotals_concat (is : List LineItem) (it : LineItem) :
    groupSubtotals (is ++ [it]) = addPrice (groupSubtotals is) it.category it.price := by
  unfold groupSubtotals
  rw [List.foldl_append]
  rfl

theorem groupSubtotals_lookup (items : List LineItem) (c : String) :
    (groupSubtotals items).lookup c =
      if (items.filter fun it => it.category == c) = [] then none
      else some (((items.filter fun it => it.category == c).map (fun it => it.price)).sum) := by
  induction items using List.reverseRecOn with
  | nil => simp [groupSubtotals, List.lookup]
  | append_singleton is it ih =>
      rw [groupSubtotals_concat, addPrice_lookup, ih]
      by_cases h : it.category = c
      · rw [if_pos h]
        have hf : (is ++ [it]).filter (fun x => x.category == c) =
            (is.filter fun x => x.category == c) ++ [it] := by
          rw [List.filter_append]
          simp [List.filter, h]
        rw [hf]
        by_cases he : (is.filter fun x => x.category == c) = []
        · simp [he]
        · simp only [he, if_neg he]
          have : ¬((is.filter fun x => x.category == c) ++ [it] = []) := by
            simp
          rw [if_neg this]
          simp [Option.getD]
      · rw [if_neg h]
        have hb : (it.category == c) = false := by
          simp only [beq_eq_false_iff_ne, ne_eq]
          exact h
        have hf : (is ++ [it]).filter (fun x => x.category == c) =
            (is.filter fun x => x.category == c) := by
          rw [List.filter_append]
          simp [List.filter, hb]
        rw [hf]

theorem addPrice_values_sum (g : List (String × ℚ)) (c : String) (p : ℚ) :
    ((addPrice g c p).map (fun cs => cs.2)).sum = ((g.map (fun cs => cs.2)).sum) + p := by
  induction g with
  | nil => simp [addPrice]
  | cons kv t ih =>
      obtain ⟨k, v⟩ := kv
      by_cases h : k = c
      · simp [addPrice, h]
        ring
      · simp [addPrice, h, ih]
        ring

theorem groupSubtotals_values_sum (items : List LineItem) :
    ((groupSubtotals items).map (fun cs => cs.2)).sum =
      (items.map (fun it => it.price)).sum := by
  induction items using List.reverseRecOn with
  | nil => simp [groupSubtotals]
  | append_singleton is it ih =>
      rw [groupSubtotals_concat, addPrice_values_sum, ih]
      simp

theorem totalSubtotal_foldl (g : List (String × ℚ)) (a : ℚ) :
    g.foldl (fun sum cs => sum + cs.2) a = a + (g.map (fun cs => cs.2)).sum := by
  induction g generalizing a with
  | nil => simp
  | cons kv t ih =>
      simp only [List.foldl_cons, List.map_cons, List.sum_cons, ih]
      ring

theorem totalSubtotal_eq_sum (g : List (String × ℚ)) :
    totalSubtotal g = (g.map (fun cs => cs.2)).sum := by
  unfold totalSubtotal
  rw [totalSubtotal_foldl, zero_add]

theorem lookup_map_keyed {β γ : Type} (l : List (String × β)) (f : String → β → γ)
    (k : String) :
    ((l.map fun p => (p.1, f p.1 p.2)).lookup k) = (l.lookup k).map (f k) := by
  induction l with
  | nil => rfl
  | cons kv t ih =>
      obtain ⟨a, b⟩ := kv
      by_cases h : a = k
      · subst h
        simp [List.lookup]
      · have hb : (k == a) = false := by
          simp only [beq_eq_false_iff_ne, ne_eq]
          exact fun e => h e.symm
        simp only [List.map_cons, List.lookup, hb]
        exact ih

theorem computeTotals_lookup (items : List LineItem) (tr : String) (dt : DiscountType)
    (dv : String) (cat : String) :
    (computeTotals items tr dt dv).lookup cat =
      ((groupSubtotals items).lookup cat).map
        (catRecordOf items (parseFloat tr / JsNum.fin 100) (orZero (parseFloat dv)) dt
          (totalSubtotal (groupSubtotals items)) cat) := by
  simp only [computeTotals]
  exact lookup_map_keyed (groupSubtotals items)
    (catRecordOf items (parseFloat tr / JsNum.fin 100) (orZero (parseFloat dv)) dt
      (totalSubtotal (groupSubtotals items))) cat

theorem catRecordOf_subtotal (items : List LineItem) (rate dValue : JsNum)
    (dt : DiscountType) (T : ℚ) (cat : String) (s : ℚ) :
    (catRecordOf items rate dValue dt T cat s).subtotal = s := rfl

theorem catRecordOf_discount_percentage (items : List LineItem) (rate dValue : JsNum)
    (T : ℚ) (cat : String) (s : ℚ) :
    (catRecordOf items rate dValue DiscountType.percentage T cat s).discount =
      JsNum.fin s * (dValue / JsNum.fin 100) := rfl

theorem catRecordOf_discount_amount (items : List LineItem) (rate dValue : JsNum)
    (T : ℚ) (cat : String) (s : ℚ) :
    (catRecordOf items rate dValue DiscountType.amount T cat s).discount =
      dValue * (JsNum.fin s / JsNum.fin T) := rfl

theorem catRecordOf_tax (items : List LineItem) (rate dValue : JsNum)
    (dt : DiscountType) (T : ℚ) (cat : String) (s : ℚ) :
    (catRecordOf items rate dValue dt T cat s).tax =
      (items.filter fun it => it.category == cat && it.taxable).foldl
        (fun sum it =>
          sum + ((JsNum.fin it.price - JsNum.fin it.price / JsNum.fin s *
            (catRecordOf items rate dValue dt T cat s).discount) * rate))
        (JsNum.fin 0) := rfl

theorem catRecordOf_total (items : List LineItem) (rate dValue : JsNum)
    (dt : DiscountType) (T : ℚ) (cat : String) (s : ℚ) :
    (catRecordOf items rate dValue dt T cat s).total =
      (JsNum.fin s - (catRecordOf items rate dValue dt T cat s).discount) +
        (catRecordOf items rate dValue dt T cat s).tax := rfl

/-- C4: for every item list (and any tax-rate string, discount type and
discount-value string), the per-category subtotals produced by
`computeTotals` sum to the sum of all item prices. -/
theorem computeTotals_subtotal_sum (items : List LineItem) (tr : String)
    (dt : DiscountType) (dv : String) :
    ((computeTotals items tr dt dv).map fun p => p.2.subtotal).sum =
      (items.map fun it => it.price).sum := by
  simp only [computeTotals, List.map_map]
  have h : ((fun p : String × CatRecord => p.2.subtotal) ∘
      (fun cs : String × ℚ =>
        (cs.1, catRecordOf items (parseFloat tr / JsNum.fin 100)
          (orZero (parseFloat dv)) dt (totalSubtotal (groupSubtotals items)) cs.1 cs.2))) =
      fun cs : String × ℚ => cs.2 := rfl
  rw [h]
  exact groupSubtotals_values_sum items

theorem sum_map_mul_div (v T : ℚ) (l : List (String × ℚ)) :
    (l.map fun cs => v * (cs.2 / T)).sum = v * ((l.map fun cs => cs.2).sum / T) := by
  induction l with
  | nil => simp
  | cons cs t ih =>
      simp only [List.map_cons, List.sum_cons, ih]
      ring

/-- C5: with an amount-type discount whose value string parses to `v` and
a strictly positive total subtotal, the per-category discounts produced by
`computeTotals` sum to exactly `v`. -/
theorem computeTotals_amount_discount_sum (items : List LineItem) (tr dv : String) (v : ℚ)
    (hv : orZero (parseFloat dv) = JsNum.fin v)
    (hT : 0 < totalSubtotal (groupSubtotals items)) :
    jsum ((computeTotals items tr DiscountType.amount dv).map fun p => p.2.discount) =
      JsNum.fin v := by
  have hT0 : totalSubtotal (groupSubtotals items) ≠ 0 := ne_of_gt hT
  simp only [computeTotals, List.map_map, hv]
  have hcomp : ((fun p : String × CatRecord => p.2.discount) ∘
      (fun cs : String × ℚ =>
        (cs.1, catRecordOf items (parseFloat tr / JsNum.fin 100) (JsNum.fin v)
          DiscountType.amount (totalSubtotal (groupSubtotals items)) cs.1 cs.2))) =
      fun cs : String × ℚ =>
        JsNum.fin (v * (cs.2 / totalSubtotal (groupSubtotals items))) := by
    funext cs
    show JsNum.fin v * (JsNum.fin cs.2 / JsNum.fin (totalSubtotal (groupSubtotals items))) = _
    rw [fin_div_fin _ hT0, fin_mul_fin]
  rw [hcomp, jsum_fin_map]
  congr 1
  rw [sum_map_mul_div, ← totalSubtotal_eq_sum, div_self hT0, mul_one]

theorem computeTotals_amount_discount_sum_witness :
    jsum ((computeTotals [⟨"x", 2, "a", false⟩] "0" DiscountType.amount "1").map
      fun p => p.2.discount) = JsNum.fin 1 :=
  computeTotals_amount_discount_sum [⟨"x", 2, "a", false⟩] "0" "1" 1
    (by with_unfolding_all rfl) (by with_unfolding_all decide)

/-- C6: with a percentage discount whose value string parses to `v`,
every category record produced by `computeTotals` has
`discount = subtotal * (v / 100)`, and a category's discount is unchanged
by adding or removing items of other categories (it only depends on the
sublist of items of that category). -/
theorem computeTotals_percentage_discount (items1 items2 : List LineItem) (tr dv : String)
    (v : ℚ) (cat : String)
    (hv : orZero (parseFloat dv) = JsNum.fin v) :
    (∀ rec : CatRecord,
        (computeTotals items1 tr DiscountType.percentage dv).lookup cat = some rec →
        rec.discount = JsNum.fin (rec.subtotal * (v / 100)))
    ∧ ((items1.filter fun it => it.category == cat) =
          (items2.filter fun it => it.category == cat) →
        ((computeTotals items1 tr DiscountType.percentage dv).lookup cat).map
            (fun rec => rec.discount) =
        ((computeTotals items2 tr DiscountType.percentage dv).lookup cat).map
            (fun rec => rec.discount)) := by
  constructor
  · intro rec h
    rw [computeTotals_lookup, hv] at h
    obtain ⟨s, _, hF⟩ := Option.map_eq_some'.mp h
    subst hF
    rw [catRecordOf_discount_percentage, catRecordOf_subtotal,
      fin_div_fin v (by norm_num : (100 : ℚ) ≠ 0), fin_mul_fin]
  · intro hfil
    have hl : (groupSubtotals items1).lookup cat = (groupSubtotals items2).lookup cat := by
      rw [groupSubtotals_lookup, groupSubtotals_lookup, hfil]
    rw [computeTotals_lookup, computeTotals_lookup, Option.map_map, Option.map_map, hl]
    rfl

theorem computeTotals_percentage_discount_witness :
    ((⟨1, JsNum.fin (1 / 10), JsNum.fin 0, JsNum.fin (9 / 10)⟩ : CatRecord).discount =
      JsNum.fin ((⟨1, JsNum.fin (1 / 10), JsNum.fin 0, JsNum.fin (9 / 10)⟩ :
        CatRecord).subtotal * (10 / 100)))
    ∧ (((computeTotals [⟨"x", 1, "a", true⟩] "0" DiscountType.percentage "10").lookup
          "a").map (fun rec => rec.discount) =
        ((computeTotals [⟨"x", 1, "a", true⟩, ⟨"y", 2, "b", false⟩] "0"
            DiscountType.percentage "10").lookup "a").map (fun rec => rec.discount)) := by
  constructor
  · exact (computeTotals_percentage_discount [⟨"x", 1, "a", true⟩]
      [⟨"x", 1, "a", true⟩, ⟨"y", 2, "b", false⟩] "0" "10" 10 "a"
      (by with_unfolding_all rfl)).1
      ⟨1, JsNum.fin (1 / 10), JsNum.fin 0, JsNum.fin (9 / 10)⟩
      (by with_unfolding_all rfl)
  · exact (computeTotals_percentage_discount [⟨"x", 1, "a", true⟩]
      [⟨"x", 1, "a", true⟩, ⟨"y", 2, "b", false⟩] "0" "10" 10 "a"
      (by with_unfolding_all rfl)).2
      (by with_unfolding_all rfl)

/-- C7: with a tax-rate string parsing to the number `r`, the tax of every
category record produced by `computeTotals` is the sum, over that
category's taxable items, of
`(price - price / subtotal * discount) * (r / 100)`; in particular it is
exactly `0` when the category has no taxable items (non-taxable items
never contribute). -/
theorem computeTotals_tax_formula (items : List LineItem) (tr : String) (dt : DiscountType)
    (dv : String) (r : ℚ) (cat : String) (rec : CatRecord)
    (hr : parseFloat tr = JsNum.fin r)
    (hrec : (computeTotals items tr dt dv).lookup cat = some rec) :
    (rec.tax = jsum ((items.filter fun it => it.category == cat && it.taxable).map
        fun it => (JsNum.fin it.price - JsNum.fin it.price / JsNum.fin rec.subtotal *
          rec.discount) * (JsNum.fin r / JsNum.fin 100)))
    ∧ ((items.filter fun it => it.category == cat && it.taxable) = [] →
        rec.tax = JsNum.fin 0) := by
  rw [computeTotals_lookup, hr] at hrec
  obtain ⟨s, _, hF⟩ := Option.map_eq_some'.mp hrec
  subst hF
  constructor
  · rw [catRecordOf_tax, catRecordOf_subtotal, jsum_foldl_map]
  · intro h
    rw [catRecordOf_tax, h]
    rfl

theorem computeTotals_tax_formula_witness :
    ((⟨5, JsNum.fin 0, JsNum.fin (1 / 2), JsNum.fin (11 / 2)⟩ : CatRecord).tax =
      jsum ((([⟨"x", 5, "a", true⟩] : List LineItem).filter
          fun it => it.category == "a" && it.taxable).map
        fun it => (JsNum.fin it.price - JsNum.fin it.price /
            JsNum.fin (⟨5, JsNum.fin 0, JsNum.fin (1 / 2), JsNum.fin (11 / 2)⟩ :
              CatRecord).subtotal *
            (⟨5, JsNum.fin 0, JsNum.fin (1 / 2), JsNum.fin (11 / 2)⟩ : CatRecord).discount) *
          (JsNum.fin 10 / JsNum.fin 100)))
    ∧ (⟨3, JsNum.fin 0, JsNum.fin 0, JsNum.fin 3⟩ : CatRecord).tax = JsNum.fin 0 := by
  constructor
  · exact (computeTotals_tax_formula [⟨"x", 5, "a", true⟩] "10" DiscountType.percentage "0"
      10 "a" ⟨5, JsNum.fin 0, JsNum.fin (1 / 2), JsNum.fin (11 / 2)⟩
      (by with_unfolding_all rfl) (by with_unfolding_all rfl)).1
  · exact (computeTotals_tax_formula [⟨"y", 3, "a", false⟩] "10" DiscountType.percentage "0"
      10 "a" ⟨3, JsNum.fin 0, JsNum.fin 0, JsNum.fin 3⟩
      (by with_unfolding_all rfl) (by with_unfolding_all rfl)).2
      (by with_unfolding_all rfl)

theorem sum_map_filter_split {α : Type} (l : List α) (p : α → Bool) (f : α → ℚ) :
    ((l.filter p).map f).sum + ((l.filter fun x => !p x).map f).sum = (l.map f).sum := by
  induction l with
  | nil => simp
  | cons a t ih =>
      cases h : p a
      · simp [List.filter_cons, h]
        linarith [ih]
      · simp [List.filter_cons, h]
        linarith [ih]

theorem price_sum_pos {l : List ℚ} (h : ∀ q ∈ l, 0 < q) (hne : l ≠ []) : 0 < l.sum := by
  cases l with
  | nil => exact absurd rfl hne
  | cons q t =>
      have hq : 0 < q := h q (List.mem_cons_self q t)
      have ht : 0 ≤ t.sum :=
        List.sum_nonneg fun x hx => le_of_lt (h x (List.mem_cons_of_mem q hx))
      simpa using add_pos_of_pos_of_nonneg hq ht

/-- C8 (amended): when every item price is strictly positive, the parsed
tax rate and discount value are non-negative numbers, and the discount is
bounded (`v ≤ 100` for a percentage discount, `v` at most the total
subtotal for an amount discount), every field of every category record
produced by `computeTotals` is a non-negative number. -/
theorem computeTotals_nonneg_of_bounded (items : List LineItem) (tr dv : String)
    (dt : DiscountType) (r v : ℚ)
    (hp : ∀ it ∈ items, 0 < it.price)
    (hr : parseFloat tr = JsNum.fin r) (hr0 : 0 ≤ r)
    (hv : orZero (parseFloat dv) = JsNum.fin v) (hv0 : 0 ≤ v)
    (hpct : dt = DiscountType.percentage → v ≤ 100)
    (hamt : dt = DiscountType.amount → v ≤ totalSubtotal (groupSubtotals items)) :
    ∀ (cat : String) (rec : CatRecord),
      (computeTotals items tr dt dv).lookup cat = some rec →
      0 ≤ rec.subtotal ∧ rec.discount.Nonneg ∧ rec.tax.Nonneg ∧ rec.total.Nonneg := by
  intro cat rec hrec
  rw [computeTotals_lookup, hr, hv] at hrec
  obtain ⟨s, hs, hF⟩ := Option.map_eq_some'.mp hrec
  rw [groupSubtotals_lookup] at hs
  by_cases hemp : (items.filter fun it => it.category == cat) = []
  · rw [if_pos hemp] at hs
    cases hs
  rw [if_neg hemp] at hs
  have hs' : ((items.filter fun it => it.category == cat).map fun it => it.price).sum = s :=
    Option.some.inj hs
  have hmemprice : ∀ q ∈ (items.filter fun it => it.category == cat).map fun it => it.price,
      0 < q := by
    intro q hq
    obtain ⟨it, hit, hq'⟩ := List.mem_map.mp hq
    exact hq' ▸ hp it (List.mem_of_mem_filter hit)
  have hspos : 0 < s := by
    rw [← hs']
    refine price_sum_pos hmemprice ?_
    intro hnil
    exact hemp (List.map_eq_nil_iff.mp hnil)
  have hs0 : s ≠ 0 := ne_of_gt hspos
  have hTges : s ≤ totalSubtotal (groupSubtotals items) := by
    rw [totalSubtotal_eq_sum, groupSubtotals_values_sum, ← hs']
    rw [← sum_map_filter_split items (fun it => it.category == cat) (fun it => it.price)]
    have hcomp : 0 ≤ ((items.filter fun it => !(it.category == cat)).map
        fun it => it.price).sum := by
      refine List.sum_nonneg ?_
      intro q hq
      obtain ⟨it, hit, hq'⟩ := List.mem_map.mp hq
      exact hq' ▸ le_of_lt (hp it (List.mem_of_mem_filter hit))
    linarith
  have hTpos : 0 < totalSubtotal (groupSubtotals items) := lt_of_lt_of_le hspos hTges
  have hT0 : totalSubtotal (groupSubtotals items) ≠ 0 := ne_of_gt hTpos
  have hdisc : ∃ dq : ℚ,
      (catRecordOf items (JsNum.fin r / JsNum.fin 100) (JsNum.fin v) dt
        (totalSubtotal (groupSubtotals items)) cat s).discount = JsNum.fin dq ∧
      0 ≤ dq ∧ dq ≤ s := by
    cases dt with
    | percentage =>
        refine ⟨s * (v / 100), ?_, ?_, ?_⟩
        · rw [catRecordOf_discount_percentage,
            fin_div_fin v (by norm_num : (100 : ℚ) ≠ 0), fin_mul_fin]
        · positivity
        · have h100 : v / 100 ≤ 1 := by
            rw [div_le_one (by norm_num : (0 : ℚ) < 100)]
            exact hpct rfl
          exact mul_le_of_le_one_right (le_of_lt hspos) h100
    | amount =>
        refine ⟨v * (s / totalSubtotal (groupSubtotals items)), ?_, ?_, ?_⟩
        · rw [catRecordOf_discount_amount, fin_div_fin s hT0, fin_mul_fin]
        · positivity
        · have hvT : v ≤ totalSubtotal (groupSubtotals items) := hamt rfl
          calc v * (s / totalSubtotal (groupSubtotals items)) ≤
              totalSubtotal (groupSubtotals items) *
                (s / totalSubtotal (groupSubtotals items)) := by
                exact mul_le_mul_of_nonneg_right hvT (by positivity)
            _ = s := by field_simp
  obtain ⟨dq, hd, hd0, hds⟩ := hdisc
  have hrate : (JsNum.fin r / JsNum.fin 100 : JsNum) = JsNum.fin (r / 100) :=
    fin_div_fin r (by norm_num : (100 : ℚ) ≠ 0)
  have htermfun : (fun it : LineItem =>
      (JsNum.fin it.price - JsNum.fin it.price / JsNum.fin s *
        (catRecordOf items (JsNum.fin r / JsNum.fin 100) (JsNum.fin v) dt
          (totalSubtotal (groupSubtotals items)) cat s).discount) *
        (JsNum.fin r / JsNum.fin 100)) =
      fun it : LineItem =>
        JsNum.fin ((it.price - it.price / s * dq) * (r / 100)) := by
    funext it
    rw [hd, hrate, fin_div_fin it.price hs0, fin_mul_fin, fin_sub_fin, fin_mul_fin]
  have htax : (catRecordOf items (JsNum.fin r / JsNum.fin 100) (JsNum.fin v) dt
      (totalSubtotal (groupSubtotals items)) cat s).tax =
      JsNum.fin (((items.filter fun it => it.category == cat && it.taxable).map
        fun it => (it.price - it.price / s * dq) * (r / 100)).sum) := by
    rw [catRecordOf_tax, jsum_foldl_map, htermfun, jsum_fin_map]
  have htq0 : 0 ≤ ((items.filter fun it => it.category == cat && it.taxable).map
      fun it => (it.price - it.price / s * dq) * (r / 100)).sum := by
    refine List.sum_nonneg ?_
    intro q hq
    obtain ⟨it, hit, hq'⟩ := List.mem_map.mp hq
    have hppos : 0 < it.price := hp it (List.mem_of_mem_filter hit)
    have hbound : it.price / s * dq ≤ it.price := by
      calc it.price / s * dq ≤ it.price / s * s :=
            mul_le_mul_of_nonneg_left hds (by positivity)
        _ = it.price := div_mul_cancel₀ it.price hs0
    have : 0 ≤ (it.price - it.price / s * dq) * (r / 100) := by
      have h1 : 0 ≤ it.price - it.price / s * dq := by linarith
      have h2 : 0 ≤ r / 100 := by positivity
      exact mul_nonneg h1 h2
    exact hq' ▸ this
  subst hF
  refine ⟨le_of_lt hspos, ⟨dq, hd, hd0⟩, ?_, ?_⟩
  · exact ⟨_, htax, htq0⟩
  · rw [catRecordOf_total, hd, htax, fin_sub_fin, fin_add_fin]
    exact ⟨_, rfl, by linarith⟩

theorem computeTotals_nonneg_of_bounded_witness :
    0 ≤ (⟨10, JsNum.fin 5, JsNum.fin (1 / 2), JsNum.fin (11 / 2)⟩ : CatRecord).subtotal ∧
    (⟨10, JsNum.fin 5, JsNum.fin (1 / 2), JsNum.fin (11 / 2)⟩ : CatRecord).discount.Nonneg ∧
    (⟨10, JsNum.fin 5, JsNum.fin (1 / 2), JsNum.fin (11 / 2)⟩ : CatRecord).tax.Nonneg ∧
    (⟨10, JsNum.fin 5, JsNum.fin (1 / 2), JsNum.fin (11 / 2)⟩ : CatRecord).total.Nonneg :=
  computeTotals_nonneg_of_bounded [⟨"x", 10, "a", true⟩] "10" "5" DiscountType.amount 10 5
    (by with_unfolding_all decide) (by with_unfolding_all rfl)
    (by with_unfolding_all decide) (by with_unfolding_all rfl)
    (by with_unfolding_all decide)
    (fun h => by cases h) (fun _ => by with_unfolding_all decide)
    "a" ⟨10, JsNum.fin 5, JsNum.fin (1 / 2), JsNum.fin (11 / 2)⟩
    (by with_unfolding_all rfl)

/-- C8 counterexample: an input satisfying the claim's hypotheses
(non-negative prices, non-negative parsed discount value and tax rate) on
which `computeTotals` produces a negative `total`: a single category of
subtotal `100` with a flat discount of `200` yields `total = -100`. -/
theorem computeTotals_nonneg_counterexample :
    (∀ it ∈ ([⟨"x", 100, "a", false⟩] : List LineItem), 0 ≤ it.price) ∧
    parseFloat "0" = JsNum.fin 0 ∧
    orZero (parseFloat "200") = JsNum.fin 200 ∧
    computeTotals [⟨"x", 100, "a", false⟩] "0" DiscountType.amount "200" =
      [("a", ⟨100, JsNum.fin 200, JsNum.fin 0, JsNum.fin (-100)⟩)] ∧
    ¬ (JsNum.fin (-100) : JsNum).Nonneg := by
  refine ⟨by with_unfolding_all decide, by with_unfolding_all rfl,
    by with_unfolding_all rfl, by with_unfolding_all rfl, by with_unfolding_all decide⟩

/-- C10 (amended): the per-item tax computation divides by the category
subtotal with no zero guard.  When the tax rate and discount value parse
to numbers, every category containing a taxable item has a strictly
positive subtotal, and additionally (forced by the flat-discount division)
the discount type is percentage or the total subtotal is nonzero, every
discount, tax and total in the output is a finite number; and on the
guard-violating input of a single taxable item of price `0`, the computed
tax (and total) is `NaN`. -/
theorem computeTotals_no_nan_of_guard :
    (∀ (items : List LineItem) (tr dv : String) (dt : DiscountType) (r v : ℚ),
      parseFloat tr = JsNum.fin r →
      orZero (parseFloat dv) = JsNum.fin v →
      (dt = DiscountType.amount → totalSubtotal (groupSubtotals items) ≠ 0) →
      (∀ it ∈ items, it.taxable = true →
        0 < ((groupSubtotals items).lookup it.category).getD 0) →
      ∀ (cat : String) (rec : CatRecord),
        (computeTotals items tr dt dv).lookup cat = some rec →
        rec.discount.IsFinite ∧ rec.tax.IsFinite ∧ rec.total.IsFinite)
    ∧ computeTotals [⟨"x", 0, "a", true⟩] "10" DiscountType.percentage "0" =
        [("a", ⟨0, JsNum.fin 0, JsNum.nan, JsNum.nan⟩)] := by
  constructor
  · intro items tr dv dt r v hr hv hTa htaxpos cat rec hrec
    rw [computeTotals_lookup, hr, hv] at hrec
    obtain ⟨s, hs, hF⟩ := Option.map_eq_some'.mp hrec
    have hdisc : ∃ dq : ℚ,
        (catRecordOf items (JsNum.fin r / JsNum.fin 100) (JsNum.fin v) dt
          (totalSubtotal (groupSubtotals items)) cat s).discount = JsNum.fin dq := by
      cases dt with
      | percentage =>
          refine ⟨s * (v / 100), ?_⟩
          rw [catRecordOf_discount_percentage,
            fin_div_fin v (by norm_num : (100 : ℚ) ≠ 0), fin_mul_fin]
      | amount =>
          refine ⟨v * (s / totalSubtotal (groupSubtotals items)), ?_⟩
          rw [catRecordOf_discount_amount, fin_div_fin s (hTa rfl), fin_mul_fin]
    obtain ⟨dq, hd⟩ := hdisc
    have hrate : (JsNum.fin r / JsNum.fin 100 : JsNum) = JsNum.fin (r / 100) :=
      fin_div_fin r (by norm_num : (100 : ℚ) ≠ 0)
    have htax : ∃ tq : ℚ,
        (catRecordOf items (JsNum.fin r / JsNum.fin 100) (JsNum.fin v) dt
          (totalSubtotal (groupSubtotals items)) cat s).tax = JsNum.fin tq := by
      by_cases hft : (items.filter fun it => it.category == cat && it.taxable) = []
      · refine ⟨0, ?_⟩
        rw [catRecordOf_tax, hft]
        rfl
      · obtain ⟨it0, hit0⟩ := List.exists_mem_of_ne_nil _ hft
        have hit0' := List.mem_filter.mp hit0
        have hcat : it0.category = cat := by
          have := hit0'.2
          simp only [Bool.and_eq_true, beq_iff_eq] at this
          exact this.1
        have htx : it0.taxable = true := by
          have := hit0'.2
          simp only [Bool.and_eq_true, beq_iff_eq] at this
          exact this.2
        have hspos : 0 < s := by
          have h := htaxpos it0 hit0'.1 htx
          rw [hcat, hs] at h
          simpa using h
        have hs0 : s ≠ 0 := ne_of_gt hspos
        have htermfun : (fun it : LineItem =>
            (JsNum.fin it.price - JsNum.fin it.price / JsNum.fin s *
              (catRecordOf items (JsNum.fin r / JsNum.fin 100) (JsNum.fin v) dt
                (totalSubtotal (groupSubtotals items)) cat s).discount) *
              (JsNum.fin r / JsNum.fin 100)) =
            fun it : LineItem =>
              JsNum.fin ((it.price - it.price / s * dq) * (r / 100)) := by
          funext it
          rw [hd, hrate, fin_div_fin it.price hs0, fin_mul_fin, fin_sub_fin, fin_mul_fin]
        refine ⟨((items.filter fun it => it.category == cat && it.taxable).map
          fun it => (it.price - it.price / s * dq) * (r / 100)).sum, ?_⟩
        rw [catRecordOf_tax, jsum_foldl_map, htermfun, jsum_fin_map]
    obtain ⟨tq, ht⟩ := htax
    subst hF
    refine ⟨⟨dq, hd⟩, ⟨tq, ht⟩, ?_⟩
    rw [catRecordOf_total, hd, ht, fin_sub_fin, fin_add_fin]
    exact ⟨_, rfl⟩
  · with_unfolding_all rfl

theorem computeTotals_no_nan_of_guard_witness :
    (⟨1, JsNum.fin 0, JsNum.fin 0, JsNum.fin 1⟩ : CatRecord).discount.IsFinite ∧
    (⟨1, JsNum.fin 0, JsNum.fin 0, JsNum.fin 1⟩ : CatRecord).tax.IsFinite ∧
    (⟨1, JsNum.fin 0, JsNum.fin 0, JsNum.fin 1⟩ : CatRecord).total.IsFinite :=
  computeTotals_no_nan_of_guard.1 [⟨"x", 1, "a", true⟩] "0" "0" DiscountType.percentage 0 0
    (by with_unfolding_all rfl) (by with_unfolding_all rfl)
    (fun h => by cases h) (by with_unfolding_all decide)
    "a" ⟨1, JsNum.fin 0, JsNum.fin 0, JsNum.fin 1⟩ (by with_unfolding_all rfl)

/-- C10 counterexample: an input satisfying the claim's stated
precondition (every category containing a taxable item has positive
subtotal — vacuously, as the single item is non-taxable — and both
strings parse to numbers) on which the output nevertheless contains a
non-numeric value: with a flat discount and total subtotal `0`, the
discount is `0 * (0 / 0) = NaN`. -/
theorem computeTotals_guard_counterexample :
    parseFloat "0" = JsNum.fin 0 ∧
    orZero (parseFloat "0") = JsNum.fin 0 ∧
    (∀ it ∈ ([⟨"x", 0, "a", false⟩] : List LineItem), it.taxable = true →
      0 < ((groupSubtotals [⟨"x", 0, "a", false⟩]).lookup it.category).getD 0) ∧
    computeTotals [⟨"x", 0, "a", false⟩] "0" DiscountType.amount "0" =
      [("a", ⟨0, JsNum.nan, JsNum.fin 0, JsNum.nan⟩)] := by
  refine ⟨by with_unfolding_all rfl, by with_unfolding_all rfl,
    by with_unfolding_all decide, by with_unfolding_all rfl⟩

/-- C2: failing evaluation.  The tax-rate parse has no zero fallback
(`rate = parseFloat(taxRate) / 100` with no guard), so with the empty
tax-rate string and a taxable item the computed tax is `NaN`, not `0`:
the whole record for category "a" is `{subtotal 1, discount 0, tax NaN,
total NaN}`. -/
theorem computeTotals_nan_tax_on_empty_rate :
    parseFloat "" = JsNum.nan ∧
    computeTotals [⟨"x", 1, "a", true⟩] "" DiscountType.percentage "0" =
      [("a", ⟨1, JsNum.fin 0, JsNum.nan, JsNum.nan⟩)] :=
  ⟨by with_unfolding_all rfl, by with_unfolding_all rfl⟩

/-- C3: failing evaluation.  With a flat (amount) discount and total
subtotal `0`, the proportional distribution divides `0 / 0`, and no
fallback is applied: the discount and total are `NaN`. -/
theorem computeTotals_nan_discount_on_zero_subtotal :
    computeTotals [⟨"x", 0, "a", false⟩] "0" DiscountType.amount "10" =
      [("a", ⟨0, JsNum.nan, JsNum.fin 0, JsNum.nan⟩)] := by
  with_unfolding_all rfl

/-- C1: failing evaluation.  `encodeState` calls `btoa` on the JSON
serialization; a category string containing a character above `U+00FF`
(here a CJK character) makes `btoa` throw, so encoding — and hence the
round trip — fails on such a state. -/
theorem encodeState_throws_on_unicode :
    encodeState ⟨[⟨"Sushi", 0, "日", true⟩], "", DiscountType.percentage, ""⟩ = none := by
  with_unfolding_all rfl

/-- C9 counterexample: the input `"e30="` decodes (via `atob`) to the
JSON text of an empty object, which parses successfully, so `decodeState`
returns it as a non-null value even though it is not structurally a
`PersistedState`: the claim's "structurally invalid content returns null"
is false. -/
theorem decodeState_no_validation :
    decodeState "e30=" = some (JVal.jobj []) ∧
    isStateJVal (JVal.jobj []) = false :=
  ⟨by with_unfolding_all rfl, rfl⟩

/-- C9 (amended): `decodeState` never throws: it returns the null
sentinel exactly when `atob` fails, the decoded text is not valid JSON,
or the decoded text is the JSON literal `null` (whose parse is the same
JavaScript `null` as the sentinel); otherwise it returns the parsed
non-null JSON value as-is with no structural validation (so a
structurally invalid but JSON-valid payload is returned non-null); on a
valid encoded state it returns the state's JSON value. -/
theorem decodeState_total_behavior :
    (∀ s : String, atob s = none → decodeState s = none)
    ∧ (∀ s t : String, atob s = some t → jsonParseText t = none → decodeState s = none)
    ∧ (∀ s t : String, atob s = some t → jsonParseText t = some JVal.jnull →
        decodeState s = none)
    ∧ (∀ (s : String) (j : JVal), decodeState s = some j →
        j.isNull = false ∧ ∃ t : String, atob s = some t ∧ jsonParseText t = some j)
    ∧ (decodeState
        "eyJpdGVtcyI6W10sInRheFJhdGUiOiIiLCJkaXNjb3VudFR5cGUiOiJwZXJjZW50YWdlIiwiZGlzY291bnRWYWx1ZSI6IiJ9" =
          some (JVal.jobj [("items", JVal.jarr []), ("taxRate", JVal.jstr ""),
            ("discountType", JVal.jstr "percentage"), ("discountValue", JVal.jstr "")]) ∧
        isStateJVal (JVal.jobj [("items", JVal.jarr []), ("taxRate", JVal.jstr ""),
          ("discountType", JVal.jstr "percentage"),
          ("discountValue", JVal.jstr "")]) = true) := by
  refine ⟨?_, ?_, ?_, ?_, by with_unfolding_all rfl, rfl⟩
  · intro s h
    simp only [decodeState, h]
  · intro s t h1 h2
    simp only [decodeState, h1, h2]
  · intro s t h1 h2
    simp only [decodeState, h1, h2, JVal.isNull, if_true]
  · intro s j h
    cases hat : atob s with
    | none =>
        simp only [decodeState, hat] at h
        cases h
    | some t =>
        simp only [decodeState, hat] at h
        cases hp : jsonParseText t with
        | none =>
            simp only [hp] at h
            cases h
        | some j' =>
            simp only [hp] at h
            cases hn : j'.isNull with
            | true =>
                rw [hn, if_pos rfl] at h
                cases h
            | false =>
                rw [hn] at h
                simp only [Bool.false_eq_true, if_false, Option.some.injEq] at h
                subst h
                exact ⟨hn, t, rfl, hp⟩

theorem decodeState_total_behavior_witness : decodeState "%%" = none :=
  decodeState_total_behavior.1 "%%" (by with_unfolding_all rfl)
